import Mathlib

/-!
Verification development for the AgoraVoiceAgent transcript pipeline.

The repository contains several iterations of a `stream-message` handler
(an early `ConversationComponent.tsx`, and two later revisions kept in the
source tree), together with a streaming-message projection
(`StreamingMessageProcessor.tsx`) and a chat view (`Floating-Chat.tsx`).

The embedding below translates those handlers into pure Lean functions.
External runtime calls (protobuf decode, `TextDecoder`, `atob`,
`JSON.parse`) are modelled as components of an `Env` record: a call that
may throw is modelled as an `Option`-valued function, `none` standing for
the thrown exception.  JavaScript `try`/`catch` blocks are modelled with
`Except` values and the `tryE` combinator.  `Date.now().toString()` and
`new Date().toLocaleTimeString()` are threaded in as the `nowId` /
`nowTime` arguments of each handler invocation.  Agora UIDs appear in the
source only through `toString()` comparisons, so they are modelled as
strings.
-/

/-- The `'user' | 'ai'` sender tag of a `StreamMessage`. -/
inductive Sender : Type where
  | user : Sender
  | ai : Sender
deriving DecidableEq, Repr

/-- One word of a decoded protobuf `Agora.SpeechToText.Text` message:
`\x7b text, is_final \x7d`. -/
structure TextWord : Type where
  text : String
  is_final : Bool
deriving DecidableEq, Repr

/-- A decoded protobuf `Text` message: its `words` array. -/
structure SttText : Type where
  words : List TextWord
deriving DecidableEq, Repr

/-- The fields of a parsed legacy JSON payload that the handlers read:
`text`, `user_id`, `is_final`.  Absent fields are `none`. -/
structure JsonPayload : Type where
  text : Option String
  user_id : Option String
  is_final : Option Bool
deriving DecidableEq, Repr

/-- The `StreamMessage` record of the later component revisions:
`\x7b uid, content, timestamp, id, avatar?, sender?, isFinal? \x7d`. -/
structure StreamMessage : Type where
  uid : String
  content : String
  timestamp : String
  id : String
  avatar : Option String := none
  sender : Option Sender := none
  isFinal : Option Bool := none
deriving DecidableEq, Repr

/-- External runtime facilities used by the handlers.  A `none` result of
`protoDecode`, `atob` or `jsonParse` models the corresponding call
throwing. -/
structure Env : Type where
  protoDecode : List Nat → Option SttText
  textDecode : List Nat → String
  atob : String → Option String
  jsonParse : String → Option JsonPayload

/-- JavaScript `try \x7b e \x7d catch \x7b h \x7d` over an
exception-transparent computation. -/
def tryE (x : Except Unit α) (h : Unit → α) : α :=
  match x with
  | Except.ok a => a
  | Except.error e => h e

/-- JavaScript truthiness of an optional string: `undefined` and the empty
string are falsy. -/
def strTruthy (o : Option String) : Bool :=
  match o with
  | none => false
  | some s => !(s == "")

/-- The sender tag computed by
`remoteUser.toString() === agentUID ? 'ai' : 'user'`. -/
def senderOf (agentUID : Option String) (remoteUser : String) : Sender :=
  if agentUID = some remoteUser then Sender.ai else Sender.user

/-- `words.map(w => w.text).join(' ')` — the space-joined concatenation of
a word list. -/
def joinSpace : List String → String
  | [] => ""
  | [s] => s
  | s :: rest => s ++ " " ++ joinSpace rest

/-- Text extracted from a protobuf message by the handlers. -/
def joinWords (ws : List TextWord) : String :=
  joinSpace (ws.map (fun w => w.text))

/-- Character-level worker for `jsSplitChar`. -/
def splitCharAux (sep : Char) : List Char → List Char → List (List Char)
  | [], acc => [acc.reverse]
  | c :: rest, acc =>
      if c == sep then acc.reverse :: splitCharAux sep rest []
      else splitCharAux sep rest (c :: acc)

/-- JavaScript `s.split(sep)` for a one-character separator (the handlers
use `decodedText.split('|')`). -/
def jsSplitChar (s : String) (sep : Char) : List String :=
  (splitCharAux sep s.toList []).map List.asString

/-- The module-scope `MESSAGE_BUFFER` object, as an association list from
message id to accumulated text. -/
def Buffer : Type := List (String × String)

/-- `MESSAGE_BUFFER[key]` — `none` when the key is absent. -/
def bufLookup : List (String × String) → String → Option String
  | [], _ => none
  | (k2, v) :: t, k => if k2 = k then some v else bufLookup t k

/-- `MESSAGE_BUFFER[key] = v` — replaces an existing binding or appends a
new one. -/
def bufInsert : List (String × String) → String → String → List (String × String)
  | [], k, v => [(k, v)]
  | (k2, v2) :: t, k, v =>
      if k2 = k then (k, v) :: t else (k2, v2) :: bufInsert t k v

/-- `delete MESSAGE_BUFFER[key]`. -/
def bufErase : List (String × String) → String → List (String × String)
  | [], _ => []
  | (k2, v2) :: t, k =>
      if k2 = k then bufErase t k else (k2, v2) :: bufErase t k

/-- `l[i] = f l[i]` — in-place update used to model
`updatedMessages[existingIndex] = \x7b ...old, ... \x7d`. -/
def listUpdate : List α → Nat → (α → α) → List α
  | [], _, _ => []
  | x :: t, 0, f => f x :: t
  | x :: t, Nat.succ n, f => x :: listUpdate t n f

/-- The mutable state touched by the part_004 revision of
`ConversationComponent`: the module-scope `MESSAGE_BUFFER` and the
`messages` React state. -/
structure ConvState : Type where
  buffer : List (String × String)
  messages : List StreamMessage
deriving DecidableEq, Repr

/-- `processJsonMessage` of the part_004 revision (lines 255-307): skips
payloads with falsy `text`; derives the sender from `user_id`; then either
updates the entry with the same `id` (overwriting `content` and `isFinal`)
or appends a new message. -/
def processJsonMessage (jsonData : JsonPayload) (messageId : String)
    (remoteUser : String) (joinedUID : String) (nowTime : String)
    (st : ConvState) : ConvState :=
  if !(strTruthy jsonData.text) then st
  else
    let sender :=
      if strTruthy jsonData.user_id && (jsonData.user_id == some joinedUID)
      then Sender.user else Sender.ai
    let messageObj : StreamMessage :=
      { uid := remoteUser, content := jsonData.text.getD "",
        timestamp := nowTime, sender := some sender,
        isFinal := some (jsonData.is_final.getD false), id := messageId }
    match st.messages.findIdx? (fun m => m.id == messageId) with
    | some i =>
        let upd := fun (old : StreamMessage) =>
          { old with content := messageObj.content, isFinal := messageObj.isFinal }
        { st with messages := listUpdate st.messages i upd }
    | none => { st with messages := st.messages ++ [messageObj] }

/-- The `setMessages` update of the part_004 binary path (lines 162-181):
final messages and messages into an empty list are appended; a non-final
message replaces a trailing non-final message from the same sender,
otherwise it is appended. -/
def binaryAppend004 (st : ConvState) (messageObj : StreamMessage)
    (isFinal : Bool) : ConvState :=
  if isFinal || st.messages.isEmpty then
    { st with messages := st.messages ++ [messageObj] }
  else
    match st.messages.getLast? with
    | none => { st with messages := st.messages ++ [messageObj] }
    | some last =>
        if !(last.isFinal.getD false) && (last.sender == messageObj.sender)
        then { st with messages := st.messages.dropLast ++ [messageObj] }
        else { st with messages := st.messages ++ [messageObj] }

/-- The protobuf branch of the part_004 handler (lines 124-181).  Errors
model the protobuf decoder throwing, or the explicit
`throw new Error('No words in protobuf message')`. -/
def binaryPath004E (env : Env) (agentUID : Option String)
    (remoteUser : String) (nowId nowTime : String) (data : List Nat)
    (st : ConvState) : Except Unit ConvState :=
  match env.protoDecode data with
  | none => Except.error ()
  | some textMessage =>
      if textMessage.words.isEmpty then Except.error ()
      else
        let isFinal :=
          match textMessage.words.head? with
          | some w => w.is_final
          | none => false
        let messageContent := joinWords textMessage.words
        let messageObj : StreamMessage :=
          { uid := remoteUser, content := messageContent,
            timestamp := nowTime,
            sender := some (senderOf agentUID remoteUser),
            isFinal := some isFinal, id := nowId }
        Except.ok (binaryAppend004 st messageObj isFinal)

/-- The JSON stage of the part_004 legacy fallback (lines 207-240): a
direct parse is tried first; on failure the text is appended to
`MESSAGE_BUFFER[messageId]` and the accumulated buffer is parsed, clearing
the entry on success. -/
def jsonStage004 (env : Env) (joinedUID remoteUser nowTime messageId
    jsonText : String) (st : ConvState) : ConvState :=
  match env.jsonParse jsonText with
  | some jsonData => processJsonMessage jsonData messageId remoteUser joinedUID nowTime st
  | none =>
      let acc := (bufLookup st.buffer messageId).getD "" ++ jsonText
      match env.jsonParse acc with
      | some completeJson =>
          let st2 := processJsonMessage completeJson messageId remoteUser
            joinedUID nowTime { st with buffer := bufInsert st.buffer messageId acc }
          { st2 with buffer := bufErase st2.buffer messageId }
      | none => { st with buffer := bufInsert st.buffer messageId acc }

/-- The base64 stage of the part_004 legacy fallback (lines 202-243); an
error models `atob` throwing, caught by the `base64Error` handler. -/
def base64Path004E (env : Env) (joinedUID remoteUser nowTime messageId
    base64Data : String) (st : ConvState) : Except Unit ConvState :=
  match env.atob base64Data with
  | none => Except.error ()
  | some jsonText =>
      Except.ok (jsonStage004 env joinedUID remoteUser nowTime messageId jsonText st)

/-- The legacy fallback of the part_004 handler (lines 182-248): decode as
text, split on the pipe delimiter, and only proceed when at least four
fields are present; a chunk with fewer fields falls through with no state
change. -/
def legacyFallback004 (env : Env) (joinedUID remoteUser nowTime : String)
    (data : List Nat) (st : ConvState) : ConvState :=
  let decodedText := env.textDecode data
  let messageParts := jsSplitChar decodedText '|'
  if messageParts.length ≥ 4 then
    let messageId := messageParts.headD ""
    let base64Data := messageParts.getD 3 ""
    tryE (base64Path004E env joinedUID remoteUser nowTime messageId base64Data st)
      (fun _ => st)
  else st

/-- The body of the part_004 `stream-message` handler (lines 119-252),
without the outermost `catch`: the protobuf branch with its
`catch (protoError)` falling back to the legacy path.  The result is
`Except`-valued so that an uncaught exception would surface as an error. -/
def handleStreamMessage004E (env : Env) (agentUID : Option String)
    (joinedUID remoteUser nowId nowTime : String) (data : List Nat)
    (st : ConvState) : Except Unit ConvState :=
  Except.ok
    (tryE (binaryPath004E env agentUID remoteUser nowId nowTime data st)
      (fun _ => legacyFallback004 env joinedUID remoteUser nowTime data st))

/-- The part_004 `stream-message` handler with its outermost
`try`/`catch`: on an escaping exception the state is left unchanged (the
handler only logs). -/
def handleStreamMessage004 (env : Env) (agentUID : Option String)
    (joinedUID remoteUser nowId nowTime : String) (data : List Nat)
    (st : ConvState) : ConvState :=
  tryE (handleStreamMessage004E env agentUID joinedUID remoteUser nowId nowTime data st)
    (fun _ => st)

/-- The regex capture `jsonText.match(/text": "([^"]+)/)` of the part_003
fallback: the leftmost position where the literal pattern is followed by a
non-empty run of non-quote characters. -/
def matchTextCapture : List Char → Option (List Char)
  | [] => none
  | c :: rest =>
      let pat : List Char := ['t', 'e', 'x', 't', '\"', ':', ' ', '\"']
      if pat.isPrefixOf (c :: rest) then
        let cap := ((c :: rest).drop pat.length).takeWhile (fun ch => ch != '\"')
        if cap.isEmpty then matchTextCapture rest else some cap
      else matchTextCapture rest

/-- String form of `matchTextCapture`. -/
def extractTextMatch (s : String) : Option String :=
  (matchTextCapture s.toList).map List.asString

/-- The JSON stage of the part_003 legacy fallback (lines 187-285): a full
parse feeds the by-id `setMessages` update; a failed parse falls back to
the regex capture, which appends to the trailing non-final message or
starts a new non-final message. -/
def jsonStage003 (env : Env) (agentUID : Option String)
    (joinedUID remoteUser nowId nowTime messageId jsonText : String)
    (msgs : List StreamMessage) : List StreamMessage :=
  match env.jsonParse jsonText with
  | some jsonData =>
      if !(strTruthy jsonData.text) then msgs
      else
        let sender :=
          if strTruthy jsonData.user_id && (jsonData.user_id == some joinedUID)
          then Sender.user else Sender.ai
        let messageObj : StreamMessage :=
          { uid := remoteUser, content := jsonData.text.getD "",
            timestamp := nowTime, sender := some sender,
            isFinal := some (jsonData.is_final.getD false), id := messageId }
        match msgs.findIdx? (fun m => m.id == messageId) with
        | some i =>
            let upd := fun (old : StreamMessage) =>
              { old with content := messageObj.content, isFinal := messageObj.isFinal }
            listUpdate msgs i upd
        | none => msgs ++ [messageObj]
  | none =>
      match extractTextMatch jsonText with
      | some partialText =>
          match msgs.getLast? with
          | some last =>
              if !(last.isFinal.getD false) then
                msgs.dropLast ++ [{ last with content := last.content ++ partialText }]
              else
                msgs ++ [{ id := nowId, uid := remoteUser, content := partialText,
                           timestamp := nowTime,
                           sender := some (senderOf agentUID remoteUser),
                           isFinal := some false }]
          | none =>
              msgs ++ [{ id := nowId, uid := remoteUser, content := partialText,
                         timestamp := nowTime,
                         sender := some (senderOf agentUID remoteUser),
                         isFinal := some false }]
      | none => msgs

/-- The base64 stage of the part_003 legacy fallback (lines 179-288). -/
def base64Path003E (env : Env) (agentUID : Option String)
    (joinedUID remoteUser nowId nowTime messageId base64Data : String)
    (msgs : List StreamMessage) : Except Unit (List StreamMessage) :=
  match env.atob base64Data with
  | none => Except.error ()
  | some jsonText =>
      Except.ok (jsonStage003 env agentUID joinedUID remoteUser nowId nowTime
        messageId jsonText msgs)

/-- The legacy fallback of the part_003 handler (lines 169-301): with at
least four pipe-separated fields the base64 path runs; otherwise the raw
decoded text is appended as a final message. -/
def legacyFallback003 (env : Env) (agentUID : Option String)
    (joinedUID remoteUser nowId nowTime : String) (data : List Nat)
    (msgs : List StreamMessage) : List StreamMessage :=
  let decodedText := env.textDecode data
  let messageParts := jsSplitChar decodedText '|'
  if messageParts.length ≥ 4 then
    let messageId := messageParts.headD ""
    let base64Data := messageParts.getD 3 ""
    tryE (base64Path003E env agentUID joinedUID remoteUser nowId nowTime
        messageId base64Data msgs)
      (fun _ => msgs)
  else
    msgs ++ [{ uid := remoteUser, content := decodedText, timestamp := nowTime,
               id := nowId, sender := some (senderOf agentUID remoteUser),
               isFinal := some true }]

/-- The protobuf branch of the part_003 handler (lines 122-165): only
final protobuf messages are appended; non-final ones are skipped. -/
def binaryPath003E (env : Env) (agentUID : Option String)
    (remoteUser nowId nowTime : String) (data : List Nat)
    (msgs : List StreamMessage) : Except Unit (List StreamMessage) :=
  match env.protoDecode data with
  | none => Except.error ()
  | some textMessage =>
      if textMessage.words.isEmpty then Except.error ()
      else
        let isFinal :=
          match textMessage.words.head? with
          | some w => w.is_final
          | none => false
        let messageContent := joinWords textMessage.words
        let messageObj : StreamMessage :=
          { uid := remoteUser, content := messageContent,
            timestamp := nowTime, sender := some (senderOf agentUID remoteUser),
            isFinal := some isFinal, id := nowId }
        if isFinal then Except.ok (msgs ++ [messageObj])
        else Except.ok msgs

/-- The body of the part_003 `stream-message` handler (lines 117-306)
without the outermost `catch`. -/
def handleStreamMessage003E (env : Env) (agentUID : Option String)
    (joinedUID remoteUser nowId nowTime : String) (data : List Nat)
    (msgs : List StreamMessage) : Except Unit (List StreamMessage) :=
  Except.ok
    (tryE (binaryPath003E env agentUID remoteUser nowId nowTime data msgs)
      (fun _ => legacyFallback003 env agentUID joinedUID remoteUser nowId nowTime data msgs))

/-- The part_003 `stream-message` handler with its outermost
`try`/`catch`. -/
def handleStreamMessage003 (env : Env) (agentUID : Option String)
    (joinedUID remoteUser nowId nowTime : String) (data : List Nat)
    (msgs : List StreamMessage) : List StreamMessage :=
  tryE (handleStreamMessage003E env agentUID joinedUID remoteUser nowId nowTime data msgs)
    (fun _ => msgs)

/-- The `StreamMessage` record of the original `ConversationComponent.tsx`
revision: `\x7b uid, content, timestamp \x7d`. -/
structure SimpleMessage : Type where
  uid : String
  content : String
  timestamp : String
deriving DecidableEq, Repr

/-- The base64/JSON stage of the original handler (lines 144-159); an
error models `atob` or `JSON.parse` throwing, caught by the `jsonError`
handler which falls back to the raw decoded text. -/
def base64PathV1E (env : Env) (base64Data : String) : Except Unit String :=
  match env.atob base64Data with
  | none => Except.error ()
  | some jsonText =>
      match env.jsonParse jsonText with
      | none => Except.error ()
      | some jsonData =>
          Except.ok (if strTruthy jsonData.text then jsonData.text.getD ""
                     else "No text content found")

/-- The legacy fallback of the original handler (lines 137-164): with at
least four fields the base64/JSON content is used (or the raw text on
error); otherwise the raw decoded text is used. -/
def fallbackContentV1 (env : Env) (data : List Nat) : String :=
  let decodedText := env.textDecode data
  let messageParts := jsSplitChar decodedText '|'
  if messageParts.length ≥ 4 then
    tryE (base64PathV1E env (messageParts.getD 3 "")) (fun _ => decodedText)
  else decodedText

/-- The protobuf branch of the original handler (lines 120-133). -/
def protoContentV1E (env : Env) (data : List Nat) : Except Unit String :=
  match env.protoDecode data with
  | none => Except.error ()
  | some textMessage =>
      if textMessage.words.isEmpty then Except.error ()
      else Except.ok (joinWords textMessage.words)

/-- The body of the original `stream-message` handler (lines 113-182)
without the outermost `catch`: it always appends exactly one message. -/
def handleStreamMessageV1E (env : Env) (remoteUser nowTime : String)
    (data : List Nat) (msgs : List SimpleMessage) : Except Unit (List SimpleMessage) :=
  let messageContent :=
    tryE (protoContentV1E env data) (fun _ => fallbackContentV1 env data)
  Except.ok (msgs ++ [{ uid := remoteUser, content := messageContent,
                        timestamp := nowTime }])

/-- The original `stream-message` handler with its outermost
`try`/`catch`. -/
def handleStreamMessageV1 (env : Env) (remoteUser nowTime : String)
    (data : List Nat) (msgs : List SimpleMessage) : List SimpleMessage :=
  tryE (handleStreamMessageV1E env remoteUser nowTime data msgs) (fun _ => msgs)

/-- Remounting the part_004 component: the `messages` `useState` starts
empty, while the module-scope `MESSAGE_BUFFER` persists (the unmount
effect, lines 310-314, only calls `client.leave()`). -/
def remountComponent004 (st : ConvState) : ConvState :=
  { buffer := st.buffer, messages := [] }

/-- The internal `Message` record of `StreamingMessageProcessor.tsx`:
`\x7b id, content, sender, timestamp, avatar?, isFinal \x7d`. -/
structure Message : Type where
  id : String
  content : String
  sender : Sender
  timestamp : String
  avatar : String
  isFinal : Bool
deriving DecidableEq, Repr

/-- Conversion of a `StreamMessage` to the processor's `Message`
(`StreamingMessageProcessor.tsx` lines 62-69). -/
def convertMessage (agentUID : Option String) (msg : StreamMessage) : Message :=
  { id := msg.id, content := msg.content, timestamp := msg.timestamp,
    sender := match msg.sender with
              | some s => s
              | none => senderOf agentUID msg.uid,
    isFinal := msg.isFinal.getD false,
    avatar := msg.avatar.getD "" }

/-- `Set.add`: membership-preserving insertion into a set represented as a
duplicate-free list. -/
def setAdd (l : List String) (x : String) : List String :=
  if l.contains x then l else x :: l

/-- Per-iteration accumulator of the `streamMessages.forEach` loop of
`StreamingMessageProcessor.tsx` (lines 54-87): the two ref-backed sets,
the batch of newly finalized messages, and the last value passed to
`setCurrentStreamingMessage` during the loop (if any). -/
structure ProcAcc : Type where
  processed : List String
  finalizedContent : List String
  newMessages : List Message
  streamingSet : Option Message
deriving DecidableEq, Repr

/-- One iteration of the `forEach` loop: skip already-processed ids; mark
processed; push final messages to the batch and record their content as
finalized; set the streaming message for non-final content not already
finalized. -/
def procStep (agentUID : Option String) (acc : ProcAcc) (msg : StreamMessage) : ProcAcc :=
  if acc.processed.contains msg.id then acc
  else
    let acc2 := { acc with processed := setAdd acc.processed msg.id }
    let message := convertMessage agentUID msg
    if message.isFinal then
      { acc2 with newMessages := acc2.newMessages ++ [message],
                  finalizedContent := setAdd acc2.finalizedContent message.content }
    else if acc2.finalizedContent.contains message.content then acc2
    else { acc2 with streamingSet := some message }

/-- The state of `useStreamingMessageProcessor`: the `messages` and
`currentStreamingMessage` React states and the two refs. -/
structure ProcState : Type where
  messages : List Message
  currentStreamingMessage : Option Message
  processed : List String
  finalizedContent : List String
deriving DecidableEq, Repr

/-- The stream-message processing effect of
`StreamingMessageProcessor.tsx` (lines 40-107): the early-return guard,
the `forEach` loop, the batched `setMessages` append of finalized
messages, and the clearing of the streaming message when its id was just
finalized or its content is recorded as finalized.  Successive
`setCurrentStreamingMessage` calls within one run are modelled by
last-call-wins, with the clearing check reading the pre-run value as the
source closure does. -/
def runProcessEffect (agentUID : Option String)
    (streamMessages : List StreamMessage) (interimMessage : Option StreamMessage)
    (st : ProcState) : ProcState :=
  if streamMessages.length = 0 ∨
     (streamMessages.length = st.processed.length ∧ interimMessage = none) then st
  else
    let acc0 : ProcAcc :=
      { processed := st.processed, finalizedContent := st.finalizedContent,
        newMessages := [], streamingSet := none }
    let acc := streamMessages.foldl (procStep agentUID) acc0
    let loopStreaming :=
      match acc.streamingSet with
      | some m => some m
      | none => st.currentStreamingMessage
    let streaming2 :=
      if acc.newMessages.isEmpty then loopStreaming
      else
        match st.currentStreamingMessage with
        | some cur =>
            if acc.newMessages.any (fun m => m.id == cur.id) ||
               acc.finalizedContent.contains cur.content
            then none
            else loopStreaming
        | none => loopStreaming
    let messages2 :=
      if acc.newMessages.isEmpty then st.messages
      else st.messages ++ acc.newMessages
    { messages := messages2, currentStreamingMessage := streaming2,
      processed := acc.processed, finalizedContent := acc.finalizedContent }

/-- The interim-message effect of `StreamingMessageProcessor.tsx`
(lines 110-130): sets the streaming message unless its content is already
finalized. -/
def runInterimEffect (agentUID : Option String)
    (interimMessage : Option StreamMessage) (st : ProcState) : ProcState :=
  match interimMessage with
  | none => st
  | some im =>
      let message : Message :=
        { id := im.id, content := im.content, timestamp := im.timestamp,
          sender := match im.sender with
                    | some s => s
                    | none => senderOf agentUID im.uid,
          isFinal := false, avatar := im.avatar.getD "" }
      if st.finalizedContent.contains message.content then st
      else { st with currentStreamingMessage := some message }

/-- `hay` contains `needle` as a contiguous sublist. -/
def containsSub (hay needle : List Char) : Bool :=
  match hay with
  | [] => needle.isEmpty
  | _ :: t => needle.isPrefixOf hay || containsSub t needle

/-- JavaScript `a.includes(b)` on strings. -/
def jsIncludes (a b : String) : Bool :=
  containsSub a.toList b.toList

/-- The duplicate test of `shouldShowStreamingMessage` in
`Floating-Chat.tsx` (lines 64-74): exact match, or either content
contained in the other. -/
def isDuplicateOf (chatHistory : List Message) (cur : Message) : Bool :=
  chatHistory.any (fun msg =>
    msg.content == cur.content ||
    jsIncludes msg.content cur.content ||
    jsIncludes cur.content msg.content)

/-- `shouldShowStreamingMessage` of `Floating-Chat.tsx` (lines 59-77). -/
def shouldShowStreamingMessage (chatHistory : List Message)
    (currentStreamingMessage : Option Message) : Bool :=
  match currentStreamingMessage with
  | none => false
  | some cur => !(isDuplicateOf chatHistory cur)

/-- The `chatHistory` state of `Floating-Chat.tsx` (line 55): the
finalized subset of the processor's messages. -/
def chatHistoryOf (messages : List Message) : List Message :=
  messages.filter (fun m => m.isFinal)

/-- The streaming slot actually rendered by `Floating-Chat.tsx`
(line 197): the streaming message appears only when present and
`shouldShowStreamingMessage()` holds. -/
def renderedStreamingMessage (chatHistory : List Message)
    (currentStreamingMessage : Option Message) : Option Message :=
  match currentStreamingMessage with
  | none => none
  | some cur =>
      if shouldShowStreamingMessage chatHistory currentStreamingMessage
      then some cur else none


/-- Looking up the key just written finds the new value. -/
theorem bufLookup_insert_self (l : List (String × String)) (k v : String) :
    bufLookup (bufInsert l k v) k = some v := by
  induction l with
  | nil => simp [bufInsert, bufLookup]
  | cons p t ih =>
      cases p with
      | mk a b =>
          by_cases ha : a = k
          · simp [bufInsert, bufLookup, ha]
          · simp [bufInsert, bufLookup, ha, ih]

/-- Writing a different key does not change a lookup. -/
theorem bufLookup_insert_ne (l : List (String × String)) (k k2 v : String)
    (h : k ≠ k2) : bufLookup (bufInsert l k2 v) k = bufLookup l k := by
  induction l with
  | nil => simp [bufInsert, bufLookup, Ne.symm h]
  | cons p t ih =>
      cases p with
      | mk a b =>
          by_cases ha : a = k2
          · subst ha
            simp [bufInsert, bufLookup, Ne.symm h]
          · by_cases hak : a = k
            · simp [bufInsert, bufLookup, ha, hak, h]
            · simp [bufInsert, bufLookup, ha, hak, ih]

/-- Erasing a different key does not change a lookup. -/
theorem bufLookup_erase_ne (l : List (String × String)) (k k2 : String)
    (h : k ≠ k2) : bufLookup (bufErase l k2) k = bufLookup l k := by
  induction l with
  | nil => simp [bufErase, bufLookup]
  | cons p t ih =>
      cases p with
      | mk a b =>
          by_cases ha : a = k2
          · subst ha
            simp [bufErase, bufLookup, Ne.symm h, ih]
          · by_cases hak : a = k
            · simp [bufErase, bufLookup, ha, hak, h]
            · simp [bufErase, bufLookup, ha, hak, ih]

/-- Erasing an absent key is the identity. -/
theorem bufErase_of_lookup_none (l : List (String × String)) (k : String)
    (h : bufLookup l k = none) : bufErase l k = l := by
  induction l with
  | nil => rfl
  | cons p t ih =>
      cases p with
      | mk a b =>
          by_cases ha : a = k
          · rw [show bufLookup ((a, b) :: t) k = some b by simp [bufLookup, ha]] at h
            exact Option.noConfusion h
          · rw [show bufLookup ((a, b) :: t) k = bufLookup t k by
              simp [bufLookup, ha]] at h
            simp [bufErase, ha, ih h]

/-- Erasing a key after writing it is the same as erasing it outright. -/
theorem bufErase_insert (l : List (String × String)) (k v : String) :
    bufErase (bufInsert l k v) k = bufErase l k := by
  induction l with
  | nil => simp [bufInsert, bufErase]
  | cons p t ih =>
      cases p with
      | mk a b =>
          by_cases ha : a = k
          · subst ha
            simp [bufInsert, bufErase]
          · simp [bufInsert, bufErase, ha, ih]

/-- Updating an index with a function that fixes the element there is the
identity. -/
theorem listUpdate_self (l : List α) (i : Nat) (f : α → α)
    (hi : i < l.length) (h : f (l.get ⟨i, hi⟩) = l.get ⟨i, hi⟩) :
    listUpdate l i f = l := by
  induction l generalizing i with
  | nil => rfl
  | cons x t ih =>
      cases i with
      | zero => simpa [listUpdate] using h
      | succ n =>
          simp only [listUpdate, List.cons.injEq, true_and]
          exact ih n (Nat.lt_of_succ_lt_succ hi) h

/-- Prepending the empty string is the identity. -/
theorem str_empty_append (s : String) : "" ++ s = s := by
  cases s
  rfl

/-- `processJsonMessage` never touches the reassembly buffer. -/
theorem processJsonMessage_buffer (jsonData : JsonPayload)
    (messageId remoteUser joinedUID nowTime : String) (st : ConvState) :
    (processJsonMessage jsonData messageId remoteUser joinedUID nowTime st).buffer
      = st.buffer := by
  unfold processJsonMessage
  by_cases h : (!(strTruthy jsonData.text)) = true
  · simp [h]
  · simp only [Bool.not_eq_true] at h
    simp only [h, Bool.false_eq_true, if_neg]
    cases hfind : st.messages.findIdx? (fun m => m.id == messageId) <;> simp [hfind]

/-- The messages produced by `processJsonMessage` do not depend on the
buffer component of the state. -/
theorem processJsonMessage_messages_congr (jsonData : JsonPayload)
    (messageId remoteUser joinedUID nowTime : String)
    (b b2 : List (String × String)) (m : List StreamMessage) :
    (processJsonMessage jsonData messageId remoteUser joinedUID nowTime
      { buffer := b, messages := m }).messages =
    (processJsonMessage jsonData messageId remoteUser joinedUID nowTime
      { buffer := b2, messages := m }).messages := by
  unfold processJsonMessage
  by_cases h : (!(strTruthy jsonData.text)) = true
  · simp [h]
  · simp only [Bool.not_eq_true] at h
    simp only [h, Bool.false_eq_true, if_neg]
    cases hfind : List.findIdx? (fun x => x.id == messageId) m <;> simp [hfind]

/-- A caught computation that succeeded yields its value. -/
theorem tryE_ok (a : α) (h : Unit → α) : tryE (Except.ok a) h = a := rfl

/-- A caught computation that threw yields the handler's value. -/
theorem tryE_error (e : Unit) (h : Unit → α) : tryE (Except.error e) h = h e := rfl

/-- Componentwise equality of `ConvState`. -/
theorem convState_ext (a b : ConvState) (h1 : a.buffer = b.buffer)
    (h2 : a.messages = b.messages) : a = b := by
  cases a
  cases b
  simp_all

/-- The binary-path `setMessages` update never touches the buffer. -/
theorem binaryAppend004_buffer (st : ConvState) (messageObj : StreamMessage)
    (isFinal : Bool) : (binaryAppend004 st messageObj isFinal).buffer = st.buffer := by
  unfold binaryAppend004
  by_cases h : (isFinal || st.messages.isEmpty) = true
  · simp [h]
  · simp only [h, Bool.false_eq_true, if_neg]
    cases hl : st.messages.getLast? with
    | none => simp
    | some last =>
        by_cases h2 : (!(last.isFinal.getD false) && (last.sender == messageObj.sender)) = true
        · simp [h2]
        · simp [h2]

/-- Overwriting a message's `content` and `isFinal` with their current
values is the identity. -/
theorem streamMessage_update_self (m : StreamMessage) (c : String) (b : Option Bool)
    (hc : m.content = c) (hb : m.isFinal = b) :
    ({ m with content := c, isFinal := b } : StreamMessage) = m := by
  cases m
  simp_all

/-- A concrete external environment used to evaluate the handlers on
closed inputs.  Chunks `[0]`/`[1]`/`[2]` carry legacy fragments for key
`m1` (an unparseable partial, then the two halves of a valid JSON
payload); chunk `[3]` is undelimited raw text; chunks `[4]`/`[5]`/`[6]`
carry key `m2` (a split JSON payload and the same payload whole); chunks
`[10]`/`[11]`/`[12]` decode as protobuf word lists. -/
def testEnv : Env where
  protoDecode := fun data =>
    if data = [10] then some { words := [{ text := "hi", is_final := true }] }
    else if data = [11] then
      some { words := [{ text := "Hel", is_final := false },
                       { text := "lo", is_final := false }] }
    else if data = [12] then
      some { words := [{ text := "Hel", is_final := true },
                       { text := "lo", is_final := true },
                       { text := " world", is_final := true }] }
    else none
  textDecode := fun data =>
    if data = [0] then "m1|1|0|A"
    else if data = [1] then "m1|1|1|B"
    else if data = [2] then "m1|1|2|C"
    else if data = [3] then "hello"
    else if data = [4] then "m2|1|0|D"
    else if data = [5] then "m2|1|1|E"
    else if data = [6] then "m2|1|0|F"
    else ""
  atob := fun s =>
    if s = "A" then some "\x7bgarbage"
    else if s = "B" then some "\x7b\"text\":\"ok\""
    else if s = "C" then some "\x7d"
    else if s = "D" then some "\x7b\"text\":\"yo\""
    else if s = "E" then some "\x7d"
    else if s = "F" then some "\x7b\"text\":\"yo\"\x7d"
    else none
  jsonParse := fun s =>
    if s = "\x7b\"text\":\"ok\"\x7d" then
      some { text := some "ok", user_id := none, is_final := none }
    else if s = "\x7b\"text\":\"yo\"\x7d" then
      some { text := some "yo", user_id := none, is_final := some true }
    else none

/-- Fixture: a final legacy payload. -/
def jHi : JsonPayload := { text := some "hi", user_id := none, is_final := some true }

/-- Fixture: a non-final legacy payload for the same key. -/
def jBye : JsonPayload := { text := some "bye", user_id := none, is_final := some false }

/-- Fixture: an already-final message with id `m1`. -/
def msgHiFinal : StreamMessage :=
  { uid := "7", content := "hi", timestamp := "t1", id := "m1",
    sender := some Sender.ai, isFinal := some true }

/-- Claim C2 (counterexample): a turn that reached final status reverts to
non-final when a later update with the same id and `is_final:false`
arrives — `processJsonMessage` overwrites the status of a terminal
message instead of ignoring the update. -/
theorem terminal_status_regression_cex :
    (processJsonMessage jHi "m1" "7" "42" "t1"
      { buffer := [], messages := [] }).messages.map (fun m => m.isFinal)
      = [some true] ∧
    (processJsonMessage jBye "m1" "7" "42" "t2"
      (processJsonMessage jHi "m1" "7" "42" "t1"
        { buffer := [], messages := [] })).messages.map (fun m => m.isFinal)
      = [some false] := by
  decide

/-- Claim C2 (amended): an update whose payload text is truthy and whose
id matches an existing message overwrites that entry's `content` and
`isFinal` unconditionally — regardless of whether the entry was already
final — so terminal status is not preserved. -/
theorem processJson_overwrites_existing (jsonData : JsonPayload)
    (messageId remoteUser joinedUID nowTime : String) (st : ConvState) (i : Nat)
    (htext : strTruthy jsonData.text = true)
    (hfind : st.messages.findIdx? (fun m => m.id == messageId) = some i) :
    (processJsonMessage jsonData messageId remoteUser joinedUID nowTime st).messages =
      listUpdate st.messages i (fun old =>
        { old with content := jsonData.text.getD "",
                   isFinal := some (jsonData.is_final.getD false) }) := by
  unfold processJsonMessage
  simp [htext, hfind]

/-- Claim C2 (witness): the overwrite theorem applied to a state holding a
final message and a non-final update for the same id. -/
theorem processJson_overwrites_existing_witness :
    (processJsonMessage jBye "m1" "7" "42" "t2"
      { buffer := [], messages := [msgHiFinal] }).messages.map (fun m => m.isFinal)
      = [some false] := by
  have h := processJson_overwrites_existing jBye "m1" "7" "42" "t2"
    { buffer := [], messages := [msgHiFinal] } 0 (by decide) (by decide)
  rw [h]
  decide

/-- Claim C5 (counterexample): re-delivering a byte-for-byte identical
final binary fragment is not a no-op — the part_004 binary path appends a
second copy of the message. -/
theorem duplicate_binary_fragment_cex :
    (handleStreamMessage004 testEnv (some "agent") "42" "7" "99" "t" [10]
      { buffer := [], messages := [] }).messages.length = 1 ∧
    (handleStreamMessage004 testEnv (some "agent") "42" "7" "99" "t" [10]
      (handleStreamMessage004 testEnv (some "agent") "42" "7" "99" "t" [10]
        { buffer := [], messages := [] })).messages.length = 2 ∧
    handleStreamMessage004 testEnv (some "agent") "42" "7" "99" "t" [10]
      (handleStreamMessage004 testEnv (some "agent") "42" "7" "99" "t" [10]
        { buffer := [], messages := [] }) ≠
    handleStreamMessage004 testEnv (some "agent") "42" "7" "99" "t" [10]
      { buffer := [], messages := [] } := by
  decide

/-- Claim C5 (amended): re-delivery is a no-op only on the legacy path —
re-processing a parsed payload whose id is already present with the same
content and final flag leaves the state unchanged (the binary path, by
contrast, appends a fresh copy, as the counterexample shows). -/
theorem processJson_redelivery_noop (jsonData : JsonPayload)
    (messageId remoteUser joinedUID nowTime : String) (st : ConvState) (i : Nat)
    (hi : i < st.messages.length)
    (htext : strTruthy jsonData.text = true)
    (hfind : st.messages.findIdx? (fun m => m.id == messageId) = some i)
    (hc : (st.messages.get ⟨i, hi⟩).content = jsonData.text.getD "")
    (hf : (st.messages.get ⟨i, hi⟩).isFinal = some (jsonData.is_final.getD false)) :
    processJsonMessage jsonData messageId remoteUser joinedUID nowTime st = st := by
  unfold processJsonMessage
  simp only [htext, Bool.not_true, Bool.false_eq_true, if_neg, hfind]
  have hupd := listUpdate_self st.messages i
    (fun old => ({ old with content := jsonData.text.getD "",
                            isFinal := some (jsonData.is_final.getD false) } : StreamMessage))
    hi (streamMessage_update_self _ _ _ hc hf)
  simp [hupd]

/-- Claim C5 (witness): re-processing the final payload already recorded
under id `m1` leaves the state unchanged. -/
theorem processJson_redelivery_noop_witness :
    processJsonMessage jHi "m1" "7" "42" "t2"
      { buffer := [], messages := [msgHiFinal] } =
      { buffer := [], messages := [msgHiFinal] } :=
  processJson_redelivery_noop jHi "m1" "7" "42" "t2"
    { buffer := [], messages := [msgHiFinal] } 0 (by decide) (by decide)
    (by decide) (by decide) (by decide)

/-- Claim C6: whenever some finalized message's text equals the live
message's text, or either text contains the other, the rendered streaming
slot of `Floating-Chat.tsx` is empty — the live message is suppressed. -/
theorem live_message_suppressed_when_duplicated (messages : List Message)
    (m fm : Message) (hmem : fm ∈ messages) (hfin : fm.isFinal = true)
    (hdup : fm.content = m.content ∨ jsIncludes fm.content m.content = true ∨
            jsIncludes m.content fm.content = true) :
    renderedStreamingMessage (chatHistoryOf messages) (some m) = none := by
  have hmem2 : fm ∈ chatHistoryOf messages := by
    unfold chatHistoryOf
    exact List.mem_filter.mpr ⟨hmem, by simp [hfin]⟩
  have hpred : (fun msg => msg.content == m.content ||
      jsIncludes msg.content m.content || jsIncludes m.content msg.content) fm = true := by
    rcases hdup with h | h | h <;> simp [h]
  have hany : isDuplicateOf (chatHistoryOf messages) m = true := by
    unfold isDuplicateOf
    exact List.any_eq_true.mpr ⟨fm, hmem2, hpred⟩
  simp [renderedStreamingMessage, shouldShowStreamingMessage, hany]

/-- Claim C6 (witness): a live message whose text is a substring of a
finalized message's text is suppressed. -/
theorem live_message_suppressed_witness :
    renderedStreamingMessage
      (chatHistoryOf
        [{ id := "a", content := "hello world", sender := Sender.ai,
           timestamp := "t", avatar := "", isFinal := true }])
      (some { id := "b", content := "hello", sender := Sender.ai,
              timestamp := "t2", avatar := "", isFinal := false }) = none := by
  exact live_message_suppressed_when_duplicated _ _
    { id := "a", content := "hello world", sender := Sender.ai,
      timestamp := "t", avatar := "", isFinal := true }
    (by decide) (by decide) (Or.inr (Or.inl (by decide)))

/-- One `forEach` iteration either leaves the batch of new messages
unchanged or appends the converted message, and in the latter case that
message is final. -/
theorem procStep_newMessages_cases (agentUID : Option String) (acc : ProcAcc)
    (msg : StreamMessage) :
    (procStep agentUID acc msg).newMessages = acc.newMessages ∨
    ((procStep agentUID acc msg).newMessages =
        acc.newMessages ++ [convertMessage agentUID msg] ∧
      (convertMessage agentUID msg).isFinal = true) := by
  unfold procStep
  by_cases h1 : acc.processed.contains msg.id = true
  · rw [if_pos h1]
    left
    rfl
  · rw [if_neg h1]
    by_cases h2 : (convertMessage agentUID msg).isFinal = true
    · right
      refine ⟨?_, h2⟩
      simp [h2]
    · by_cases h3 : (convertMessage agentUID msg).content ∈ acc.finalizedContent
      · left
        simp [h2, h3]
      · left
        simp [h2, h3]

/-- Every message pushed to the batch across the whole `forEach` loop is
final. -/
theorem foldl_procStep_final (agentUID : Option String)
    (sm : List StreamMessage) (acc : ProcAcc)
    (h : ∀ m ∈ acc.newMessages, m.isFinal = true) :
    ∀ m ∈ (sm.foldl (procStep agentUID) acc).newMessages, m.isFinal = true := by
  induction sm generalizing acc with
  | nil => simpa using h
  | cons x t ih =>
      simp only [List.foldl_cons]
      refine ih _ ?_
      rcases procStep_newMessages_cases agentUID acc x with hc | ⟨hc, hfin⟩
      · rw [hc]
        exact h
      · rw [hc]
        intro m hm
        rcases List.mem_append.mp hm with hml | hmr
        · exact h m hml
        · rw [List.mem_singleton.mp hmr]
          exact hfin

/-- Claim C10: the finalized history of `useStreamingMessageProcessor` is
append-only — one run of the processing effect extends `messages` by a
(possibly empty) suffix of messages all marked final, never removing,
reordering or mutating existing entries. -/
theorem processor_history_append_only (agentUID : Option String)
    (streamMessages : List StreamMessage) (interimMessage : Option StreamMessage)
    (st : ProcState) :
    ∃ extra, (runProcessEffect agentUID streamMessages interimMessage st).messages
        = st.messages ++ extra ∧
      ∀ m ∈ extra, m.isFinal = true := by
  unfold runProcessEffect
  by_cases hg : streamMessages.length = 0 ∨
      (streamMessages.length = st.processed.length ∧ interimMessage = none)
  · refine ⟨[], ?_, by simp⟩
    rw [if_pos hg]
    simp
  · rw [if_neg hg]
    refine ⟨(streamMessages.foldl (procStep agentUID)
      { processed := st.processed, finalizedContent := st.finalizedContent,
        newMessages := [], streamingSet := none }).newMessages, ?_, ?_⟩
    · simp only []
      by_cases he : (streamMessages.foldl (procStep agentUID)
          { processed := st.processed, finalizedContent := st.finalizedContent,
            newMessages := [], streamingSet := none }).newMessages.isEmpty = true
      · rw [if_pos he, List.isEmpty_iff.mp he]
        simp
      · rw [if_neg he]
    · exact foldl_procStep_final agentUID streamMessages _ (by simp)

/-- Claim C7 (counterexample): the two-fragment binary scenario does not
end with a finalized turn reading "Hello world" — the handlers join the
protobuf words with spaces. -/
theorem binary_scenario_text_cex :
    ((handleStreamMessage004 testEnv (some "agent") "42" "7" "2" "t2" [12]
        (handleStreamMessage004 testEnv (some "agent") "42" "7" "1" "t1" [11]
          { buffer := [], messages := [] })).messages.filter
      (fun m => m.isFinal.getD false)).map (fun m => m.content)
      ≠ ["Hello world"] := by
  decide

/-- Claim C7 (amended): processing fragments with word lists
`["Hel","lo"]` (non-final) and `["Hel","lo"," world"]` (final) for the
same sender ends with exactly one finalized message, whose text is the
space-join "Hel lo  world". -/
theorem binary_scenario_text_amended :
    ((handleStreamMessage004 testEnv (some "agent") "42" "7" "2" "t2" [12]
        (handleStreamMessage004 testEnv (some "agent") "42" "7" "1" "t1" [11]
          { buffer := [], messages := [] })).messages.filter
      (fun m => m.isFinal.getD false)).map (fun m => m.content)
      = ["Hel lo  world"] := by
  decide

/-- Claim C8 (counterexample): a partial legacy payload leaves content in
the module-scope `MESSAGE_BUFFER`, and that content is still present
after the component is unmounted and remounted — reassembly state
survives as process-wide state across component instances. -/
theorem buffer_survives_remount_cex :
    bufLookup (remountComponent004
      (handleStreamMessage004 testEnv (some "agent") "42" "7" "99" "t1" [0]
        { buffer := [], messages := [] })).buffer "m1" = some "\x7bgarbage" ∧
    (remountComponent004
      (handleStreamMessage004 testEnv (some "agent") "42" "7" "99" "t1" [0]
        { buffer := [], messages := [] })).buffer ≠ [] := by
  decide

/-- Claim C8 (amended): remounting starts the per-instance `messages`
state from empty, but every reassembly-buffer entry present before the
remount is still present afterwards — cleanup does not clear the
module-scope buffer. -/
theorem remount_fresh_messages_shared_buffer (env : Env)
    (agentUID : Option String) (joinedUID remoteUser nowId nowTime : String)
    (data : List Nat) (st : ConvState) (k v : String)
    (h : bufLookup (handleStreamMessage004 env agentUID joinedUID remoteUser
        nowId nowTime data st).buffer k = some v) :
    bufLookup (remountComponent004 (handleStreamMessage004 env agentUID
        joinedUID remoteUser nowId nowTime data st)).buffer k = some v ∧
    (remountComponent004 (handleStreamMessage004 env agentUID joinedUID
        remoteUser nowId nowTime data st)).messages = [] :=
  ⟨h, rfl⟩

/-- Claim C8 (witness): the remount theorem applied after buffering a
partial payload under key `m1`. -/
theorem remount_fresh_messages_shared_buffer_witness :
    bufLookup (remountComponent004 (handleStreamMessage004 testEnv
        (some "agent") "42" "7" "99" "t1" [0]
        { buffer := [], messages := [] })).buffer "m1" = some "\x7bgarbage" ∧
    (remountComponent004 (handleStreamMessage004 testEnv (some "agent") "42"
        "7" "99" "t1" [0] { buffer := [], messages := [] })).messages = [] :=
  remount_fresh_messages_shared_buffer testEnv (some "agent") "42" "7" "99"
    "t1" [0] { buffer := [], messages := [] } "m1" "\x7bgarbage" (by decide)

/-- Claim C9: none of the three `stream-message` handler revisions lets an
exception escape — the handler body (everything inside the outermost
`try`) already evaluates to a success value for every environment and
input, so the handler completes and returns that value. -/
theorem stream_handler_never_throws (env : Env) (agentUID : Option String)
    (joinedUID remoteUser nowId nowTime : String) (data : List Nat)
    (st : ConvState) (msgs : List StreamMessage) (msgsV1 : List SimpleMessage) :
    (∃ st2, handleStreamMessage004E env agentUID joinedUID remoteUser nowId
        nowTime data st = Except.ok st2 ∧
      handleStreamMessage004 env agentUID joinedUID remoteUser nowId nowTime
        data st = st2) ∧
    (∃ ms2, handleStreamMessage003E env agentUID joinedUID remoteUser nowId
        nowTime data msgs = Except.ok ms2 ∧
      handleStreamMessage003 env agentUID joinedUID remoteUser nowId nowTime
        data msgs = ms2) ∧
    (∃ ms1, handleStreamMessageV1E env remoteUser nowTime data msgsV1
        = Except.ok ms1 ∧
      handleStreamMessageV1 env remoteUser nowTime data msgsV1 = ms1) :=
  ⟨⟨_, rfl, rfl⟩, ⟨_, rfl, rfl⟩, ⟨_, rfl, rfl⟩⟩

/-- Claim C4 (counterexample): in the part_003 handler a chunk that fails
protobuf decoding and has fewer than four pipe-separated fields is not
dropped — it is appended to the transcript as a raw-text final message. -/
theorem raw_text_chunk_appended_cex :
    (handleStreamMessage003 testEnv (some "agent") "42" "7" "99" "t" [3] []).map
        (fun m => (m.content, m.isFinal)) = [("hello", some true)] ∧
    handleStreamMessage003 testEnv (some "agent") "42" "7" "99" "t" [3] [] ≠ [] := by
  decide

/-- Claim C4 (amended): a chunk that fails both formats is dropped with no
state change by the part_004 handler, but the part_003 handler appends it
as a raw-text final message and the original handler appends it as a raw
message; no handler throws. -/
theorem malformed_chunk_disposition (env : Env) (agentUID : Option String)
    (joinedUID remoteUser nowId nowTime : String) (data : List Nat)
    (st : ConvState) (msgs : List StreamMessage) (msgsV1 : List SimpleMessage)
    (hproto : env.protoDecode data = none)
    (hparts : (jsSplitChar (env.textDecode data) '|').length < 4) :
    handleStreamMessage004 env agentUID joinedUID remoteUser nowId nowTime
      data st = st ∧
    handleStreamMessage003 env agentUID joinedUID remoteUser nowId nowTime
      data msgs =
      msgs ++ [{ uid := remoteUser, content := env.textDecode data,
                 timestamp := nowTime, id := nowId,
                 sender := some (senderOf agentUID remoteUser),
                 isFinal := some true }] ∧
    handleStreamMessageV1 env remoteUser nowTime data msgsV1 =
      msgsV1 ++ [{ uid := remoteUser, content := env.textDecode data,
                   timestamp := nowTime }] := by
  have hnotge : ¬((jsSplitChar (env.textDecode data) '|').length ≥ 4) :=
    Nat.not_le.mpr hparts
  refine ⟨?_, ?_, ?_⟩
  · simp [handleStreamMessage004, handleStreamMessage004E, tryE, binaryPath004E,
      hproto, legacyFallback004, hnotge]
  · simp [handleStreamMessage003, handleStreamMessage003E, tryE, binaryPath003E,
      hproto, legacyFallback003, hnotge]
  · simp [handleStreamMessageV1, handleStreamMessageV1E, tryE, protoContentV1E,
      hproto, fallbackContentV1, hnotge]

/-- Claim C4 (witness): the disposition theorem applied to the raw chunk
"hello". -/
theorem malformed_chunk_disposition_witness :
    handleStreamMessage004 testEnv (some "agent") "42" "7" "99" "t" [3]
      { buffer := [], messages := [] } = { buffer := [], messages := [] } ∧
    handleStreamMessage003 testEnv (some "agent") "42" "7" "99" "t" [3] [] =
      [] ++ [{ uid := "7", content := testEnv.textDecode [3], timestamp := "t",
               id := "99", sender := some (senderOf (some "agent") "7"),
               isFinal := some true }] ∧
    handleStreamMessageV1 testEnv "7" "t" [3] [] =
      [] ++ [{ uid := "7", content := testEnv.textDecode [3], timestamp := "t" }] :=
  malformed_chunk_disposition testEnv (some "agent") "42" "7" "99" "t" [3]
    { buffer := [], messages := [] } [] [] (by decide) (by decide)


/-- If the protobuf branch of the part_004 handler succeeds, it does not
touch the reassembly buffer. -/
theorem binaryPath004E_ok_buffer (env : Env) (agentUID : Option String)
    (remoteUser nowId nowTime : String) (data : List Nat) (st : ConvState)
    (v : ConvState)
    (h : binaryPath004E env agentUID remoteUser nowId nowTime data st
      = Except.ok v) : v.buffer = st.buffer := by
  unfold binaryPath004E at h
  split at h
  · exact Except.noConfusion h
  · split at h
    · exact Except.noConfusion h
    · simp only [Except.ok.injEq] at h
      rw [← h]
      exact binaryAppend004_buffer st _ _

/-- The legacy fallback of the part_004 handler modifies at most the
buffer entry of the chunk's own message id: a lookup at any other key is
unchanged. -/
theorem legacyFallback004_lookup_ne (env : Env)
    (joinedUID remoteUser nowTime : String) (data : List Nat)
    (st : ConvState) (k : String)
    (hk : k ≠ (jsSplitChar (env.textDecode data) '|').headD "") :
    bufLookup (legacyFallback004 env joinedUID remoteUser nowTime data st).buffer k
      = bufLookup st.buffer k := by
  set mid := (jsSplitChar (env.textDecode data) '|').headD "" with hmid
  set b64 := (jsSplitChar (env.textDecode data) '|').getD 3 "" with hb64
  unfold legacyFallback004
  show bufLookup
      (if (jsSplitChar (env.textDecode data) '|').length ≥ 4 then
        tryE (base64Path004E env joinedUID remoteUser nowTime mid b64 st)
          (fun _ => st)
      else st).buffer k = bufLookup st.buffer k
  unfold base64Path004E jsonStage004 tryE
  split
  · split
    · next a heq =>
        split at heq
        · exact Except.noConfusion heq
        · next jsonText hat =>
            simp only [Except.ok.injEq] at heq
            rw [← heq]
            split
            · rw [processJsonMessage_buffer]
            · show bufLookup
                (match env.jsonParse ((bufLookup st.buffer mid).getD "" ++ jsonText) with
                | some completeJson =>
                    (fun (st2 : ConvState) =>
                      ({ buffer := bufErase st2.buffer mid,
                         messages := st2.messages } : ConvState))
                    (processJsonMessage completeJson mid remoteUser joinedUID nowTime
                      { buffer := bufInsert st.buffer mid
                          ((bufLookup st.buffer mid).getD "" ++ jsonText),
                        messages := st.messages })
                | none =>
                    { buffer := bufInsert st.buffer mid
                        ((bufLookup st.buffer mid).getD "" ++ jsonText),
                      messages := st.messages }).buffer k = bufLookup st.buffer k
              split
              · show bufLookup (bufErase (processJsonMessage _ mid remoteUser joinedUID nowTime
                    { buffer := bufInsert st.buffer mid
                        ((bufLookup st.buffer mid).getD "" ++ jsonText),
                      messages := st.messages }).buffer mid) k = bufLookup st.buffer k
                rw [processJsonMessage_buffer]
                rw [bufLookup_erase_ne _ _ _ hk]
                rw [bufLookup_insert_ne _ _ _ _ hk]
              · show bufLookup (bufInsert st.buffer mid
                    ((bufLookup st.buffer mid).getD "" ++ jsonText)) k = bufLookup st.buffer k
                rw [bufLookup_insert_ne _ _ _ _ hk]
    · next e heq => rfl
  · rfl

/-- Claim C1 (amended): `MESSAGE_BUFFER` entries are never evicted by
time or attempt count — an entry is removed only by a successful JSON
parse of its own accumulation.  Processing any chunk whose legacy message
id differs from a key leaves that key's buffered entry untouched, so a
never-completing partial persists indefinitely. -/
theorem buffer_entry_persists_no_eviction (env : Env) (agentUID : Option String)
    (joinedUID remoteUser nowId nowTime : String) (data : List Nat)
    (st : ConvState) (k : String)
    (hk : k ≠ (jsSplitChar (env.textDecode data) '|').headD "") :
    bufLookup (handleStreamMessage004 env agentUID joinedUID remoteUser nowId
      nowTime data st).buffer k = bufLookup st.buffer k := by
  unfold handleStreamMessage004 handleStreamMessage004E
  rw [tryE_ok]
  cases hbp : binaryPath004E env agentUID remoteUser nowId nowTime data st with
  | ok v =>
      rw [tryE_ok]
      rw [binaryPath004E_ok_buffer env agentUID remoteUser nowId nowTime data st v hbp]
  | error e =>
      rw [tryE_error]
      exact legacyFallback004_lookup_ne env joinedUID remoteUser nowTime data st k hk

/-- Claim C1 (witness): the persistence theorem applied to a state holding
a stale partial under key `m1` while an unrelated complete chunk for key
`m2` is processed. -/
theorem buffer_entry_persists_no_eviction_witness :
    bufLookup (handleStreamMessage004 testEnv (some "agent") "42" "7" "99" "t2" [6]
      { buffer := [("m1", "\x7bgarbage")], messages := [] }).buffer "m1"
      = bufLookup ({ buffer := [("m1", "\x7bgarbage")], messages := [] } : ConvState).buffer "m1" := by
  exact buffer_entry_persists_no_eviction testEnv (some "agent") "42" "7" "99" "t2" [6]
    { buffer := [("m1", "\x7bgarbage")], messages := [] } "m1" (by decide)

/-- Claim C1 (counterexample): a partial payload for key `m1` that never
completes is still in `MESSAGE_BUFFER` after further chunks arrive, and a
later message reusing key `m1` — whose own two fragments form valid JSON —
is corrupted by the stale prefix: its accumulation never parses, no
message is produced, and the buffer entry only grows. -/
theorem stale_partial_never_evicted_cex :
    bufLookup (handleStreamMessage004 testEnv (some "agent") "42" "7" "99" "t1" [0]
      { buffer := [], messages := [] }).buffer "m1" = some "\x7bgarbage" ∧
    bufLookup (handleStreamMessage004 testEnv (some "agent") "42" "7" "99" "t3" [2]
      (handleStreamMessage004 testEnv (some "agent") "42" "7" "99" "t2" [1]
        (handleStreamMessage004 testEnv (some "agent") "42" "7" "99" "t1" [0]
          { buffer := [], messages := [] }))).buffer "m1"
      = some ("\x7bgarbage" ++ "\x7b\"text\":\"ok\"" ++ "\x7d") ∧
    (handleStreamMessage004 testEnv (some "agent") "42" "7" "99" "t3" [2]
      (handleStreamMessage004 testEnv (some "agent") "42" "7" "99" "t2" [1]
        (handleStreamMessage004 testEnv (some "agent") "42" "7" "99" "t1" [0]
          { buffer := [], messages := [] }))).messages = [] := by
  decide

/-- Unfolding of the legacy fallback with its local bindings inlined. -/
theorem legacyFallback004_eq (env : Env) (joinedUID remoteUser nowTime : String)
    (data : List Nat) (st : ConvState) :
    legacyFallback004 env joinedUID remoteUser nowTime data st =
      (if (jsSplitChar (env.textDecode data) '|').length ≥ 4 then
        tryE (base64Path004E env joinedUID remoteUser nowTime
          ((jsSplitChar (env.textDecode data) '|').headD "")
          ((jsSplitChar (env.textDecode data) '|').getD 3 "") st) (fun _ => st)
      else st) := rfl

/-- When the protobuf decoder throws, the part_004 handler runs its
legacy fallback. -/
theorem handle004_legacy (env : Env) (agentUID : Option String)
    (joinedUID remoteUser nowId nowTime : String) (data : List Nat)
    (st : ConvState) (hp : env.protoDecode data = none) :
    handleStreamMessage004 env agentUID joinedUID remoteUser nowId nowTime data st
      = legacyFallback004 env joinedUID remoteUser nowTime data st := by
  unfold handleStreamMessage004 handleStreamMessage004E
  rw [tryE_ok]
  have hb : binaryPath004E env agentUID remoteUser nowId nowTime data st
      = Except.error () := by
    unfold binaryPath004E
    rw [hp]
  rw [hb, tryE_error]

/-- A chunk splitting into exactly four pipe-separated fields enters the
base64 path with that split's first and fourth fields. -/
theorem legacyFallback004_four (env : Env) (joinedUID remoteUser nowTime : String)
    (data : List Nat) (st : ConvState) (mid v i b : String)
    (ht : jsSplitChar (env.textDecode data) '|' = [mid, v, i, b]) :
    legacyFallback004 env joinedUID remoteUser nowTime data st =
      tryE (base64Path004E env joinedUID remoteUser nowTime mid b st) (fun _ => st) := by
  rw [legacyFallback004_eq, ht, if_pos (by simp)]
  rfl

/-- A successful `atob` hands the decoded text to the JSON stage. -/
theorem base64Path004E_some (env : Env) (joinedUID remoteUser nowTime mid b64 : String)
    (st : ConvState) (p : String) (ha : env.atob b64 = some p) :
    base64Path004E env joinedUID remoteUser nowTime mid b64 st
      = Except.ok (jsonStage004 env joinedUID remoteUser nowTime mid p st) := by
  unfold base64Path004E
  rw [ha]

/-- A directly parseable payload is processed at once, leaving the buffer
untouched. -/
theorem jsonStage004_direct (env : Env) (joinedUID remoteUser nowTime mid jsonText : String)
    (st : ConvState) (j : JsonPayload) (hdirect : env.jsonParse jsonText = some j) :
    jsonStage004 env joinedUID remoteUser nowTime mid jsonText st
      = processJsonMessage j mid remoteUser joinedUID nowTime st := by
  unfold jsonStage004
  rw [hdirect]

/-- An unparseable payload whose accumulation also fails to parse is
appended to the buffer entry of its message id and produces no message. -/
theorem jsonStage004_buffering (env : Env) (joinedUID remoteUser nowTime mid jsonText : String)
    (st : ConvState)
    (hdirect : env.jsonParse jsonText = none)
    (hacc : env.jsonParse ((bufLookup st.buffer mid).getD "" ++ jsonText) = none) :
    jsonStage004 env joinedUID remoteUser nowTime mid jsonText st
      = { st with buffer := bufInsert st.buffer mid ((bufLookup st.buffer mid).getD "" ++ jsonText) } := by
  unfold jsonStage004
  rw [hdirect]
  show (match env.jsonParse ((bufLookup st.buffer mid).getD "" ++ jsonText) with
    | some completeJson =>
        (fun (st2 : ConvState) =>
          ({ buffer := bufErase st2.buffer mid, messages := st2.messages } : ConvState))
        (processJsonMessage completeJson mid remoteUser joinedUID nowTime
          { buffer := bufInsert st.buffer mid ((bufLookup st.buffer mid).getD "" ++ jsonText),
            messages := st.messages })
    | none =>
        { buffer := bufInsert st.buffer mid ((bufLookup st.buffer mid).getD "" ++ jsonText),
          messages := st.messages }) =
    { buffer := bufInsert st.buffer mid ((bufLookup st.buffer mid).getD "" ++ jsonText),
      messages := st.messages }
  rw [hacc]

/-- An unparseable payload whose accumulation parses is processed as the
accumulated JSON, and the buffer entry of its message id is cleared. -/
theorem jsonStage004_complete (env : Env) (joinedUID remoteUser nowTime mid jsonText : String)
    (st : ConvState) (j : JsonPayload)
    (hdirect : env.jsonParse jsonText = none)
    (hacc : env.jsonParse ((bufLookup st.buffer mid).getD "" ++ jsonText) = some j) :
    jsonStage004 env joinedUID remoteUser nowTime mid jsonText st
      = { buffer := bufErase (processJsonMessage j mid remoteUser joinedUID nowTime
            { buffer := bufInsert st.buffer mid
                ((bufLookup st.buffer mid).getD "" ++ jsonText),
              messages := st.messages }).buffer mid,
          messages := (processJsonMessage j mid remoteUser joinedUID nowTime
            { buffer := bufInsert st.buffer mid
                ((bufLookup st.buffer mid).getD "" ++ jsonText),
              messages := st.messages }).messages } := by
  unfold jsonStage004
  rw [hdirect]
  show (match env.jsonParse ((bufLookup st.buffer mid).getD "" ++ jsonText) with
    | some completeJson =>
        (fun (st2 : ConvState) =>
          ({ buffer := bufErase st2.buffer mid, messages := st2.messages } : ConvState))
        (processJsonMessage completeJson mid remoteUser joinedUID nowTime
          { buffer := bufInsert st.buffer mid ((bufLookup st.buffer mid).getD "" ++ jsonText),
            messages := st.messages })
    | none =>
        { buffer := bufInsert st.buffer mid ((bufLookup st.buffer mid).getD "" ++ jsonText),
          messages := st.messages }) = _
  rw [hacc]

/-- Claim C3: with a clean buffer entry for the message key, delivering a
JSON payload split into two legacy chunks (each fragment unparseable on
its own, the concatenation parseable) yields exactly the state produced
by delivering the whole payload in one chunk at the time of the second
fragment: the same message is produced and the buffer entry is removed. -/
theorem split_reassembly_matches_single_chunk (env : Env) (agentUID : Option String)
    (joinedUID remoteUser nowId1 nowTime1 nowId2 nowTime2 : String)
    (st : ConvState) (c1 c2 cw : List Nat)
    (mid v1 i1 b1 v2 i2 b2 vw iw bw p1 p2 : String) (j : JsonPayload)
    (hbuf : bufLookup st.buffer mid = none)
    (hp1 : env.protoDecode c1 = none)
    (ht1 : jsSplitChar (env.textDecode c1) '|' = [mid, v1, i1, b1])
    (ha1 : env.atob b1 = some p1)
    (hj1 : env.jsonParse p1 = none)
    (hp2 : env.protoDecode c2 = none)
    (ht2 : jsSplitChar (env.textDecode c2) '|' = [mid, v2, i2, b2])
    (ha2 : env.atob b2 = some p2)
    (hj2 : env.jsonParse p2 = none)
    (hpw : env.protoDecode cw = none)
    (htw : jsSplitChar (env.textDecode cw) '|' = [mid, vw, iw, bw])
    (haw : env.atob bw = some (p1 ++ p2))
    (hjw : env.jsonParse (p1 ++ p2) = some j) :
    handleStreamMessage004 env agentUID joinedUID remoteUser nowId2 nowTime2 c2
      (handleStreamMessage004 env agentUID joinedUID remoteUser nowId1 nowTime1 c1 st) =
    handleStreamMessage004 env agentUID joinedUID remoteUser nowId2 nowTime2 cw st := by
  have hv1 : (bufLookup st.buffer mid).getD "" ++ p1 = p1 := by
    rw [hbuf]
    exact str_empty_append p1
  have hacc1 : env.jsonParse ((bufLookup st.buffer mid).getD "" ++ p1) = none := by
    rw [hv1]
    exact hj1
  have hS1 : handleStreamMessage004 env agentUID joinedUID remoteUser nowId1 nowTime1 c1 st
      = { buffer := bufInsert st.buffer mid p1, messages := st.messages } := by
    rw [handle004_legacy env agentUID joinedUID remoteUser nowId1 nowTime1 c1 st hp1]
    rw [legacyFallback004_four env joinedUID remoteUser nowTime1 c1 st mid v1 i1 b1 ht1]
    rw [base64Path004E_some env joinedUID remoteUser nowTime1 mid b1 st p1 ha1]
    rw [tryE_ok]
    rw [jsonStage004_buffering env joinedUID remoteUser nowTime1 mid p1 st hj1 hacc1]
    rw [hv1]
  rw [hS1]
  have hlook : bufLookup (bufInsert st.buffer mid p1) mid = some p1 :=
    bufLookup_insert_self st.buffer mid p1
  have hacc2 : env.jsonParse ((bufLookup
      ({ buffer := bufInsert st.buffer mid p1, messages := st.messages } : ConvState).buffer
      mid).getD "" ++ p2) = some j := by
    show env.jsonParse ((bufLookup (bufInsert st.buffer mid p1) mid).getD "" ++ p2) = some j
    rw [hlook]
    exact hjw
  rw [handle004_legacy env agentUID joinedUID remoteUser nowId2 nowTime2 c2 _ hp2]
  rw [legacyFallback004_four env joinedUID remoteUser nowTime2 c2 _ mid v2 i2 b2 ht2]
  rw [base64Path004E_some env joinedUID remoteUser nowTime2 mid b2 _ p2 ha2]
  rw [tryE_ok]
  rw [jsonStage004_complete env joinedUID remoteUser nowTime2 mid p2 _ j hj2 hacc2]
  rw [handle004_legacy env agentUID joinedUID remoteUser nowId2 nowTime2 cw st hpw]
  rw [legacyFallback004_four env joinedUID remoteUser nowTime2 cw st mid vw iw bw htw]
  rw [base64Path004E_some env joinedUID remoteUser nowTime2 mid bw st (p1 ++ p2) haw]
  rw [tryE_ok]
  rw [jsonStage004_direct env joinedUID remoteUser nowTime2 mid (p1 ++ p2) st j hjw]
  refine convState_ext _ _ ?_ ?_
  · show bufErase (processJsonMessage j mid remoteUser joinedUID nowTime2
        { buffer := bufInsert (bufInsert st.buffer mid p1) mid ((bufLookup ({ buffer := bufInsert st.buffer mid p1, messages := st.messages } : ConvState).buffer mid).getD "" ++ p2),
          messages := st.messages }).buffer mid
      = (processJsonMessage j mid remoteUser joinedUID nowTime2 st).buffer
    rw [processJsonMessage_buffer, processJsonMessage_buffer]
    rw [bufErase_insert, bufErase_insert]
    rw [bufErase_of_lookup_none st.buffer mid hbuf]
  · show (processJsonMessage j mid remoteUser joinedUID nowTime2
        { buffer := bufInsert (bufInsert st.buffer mid p1) mid ((bufLookup ({ buffer := bufInsert st.buffer mid p1, messages := st.messages } : ConvState).buffer mid).getD "" ++ p2),
          messages := st.messages }).messages
      = (processJsonMessage j mid remoteUser joinedUID nowTime2 st).messages
    exact processJsonMessage_messages_congr j mid remoteUser joinedUID nowTime2 _ _ st.messages

/-- Claim C3 (witness): the reassembly theorem applied to the concrete
split payload for key `m2` in `testEnv`. -/
theorem split_reassembly_matches_single_chunk_witness :
    handleStreamMessage004 testEnv (some "agent") "42" "7" "992" "t2" [5]
      (handleStreamMessage004 testEnv (some "agent") "42" "7" "991" "t1" [4]
        { buffer := [], messages := [] }) =
    handleStreamMessage004 testEnv (some "agent") "42" "7" "992" "t2" [6]
      { buffer := [], messages := [] } :=
  split_reassembly_matches_single_chunk testEnv (some "agent") "42" "7" "991"
    "t1" "992" "t2" { buffer := [], messages := [] } [4] [5] [6]
    "m2" "1" "0" "D" "1" "1" "E" "1" "0" "F" "\x7b\"text\":\"yo\"" "\x7d"
    { text := some "yo", user_id := none, is_final := some true }
    (by decide) (by decide) (by decide) (by decide) (by decide) (by decide)
    (by decide) (by decide) (by decide) (by decide) (by decide) (by decide)
    (by decide)
